import Mathlib

/-!
Verification of the fingering synthesis and scoring engine of the
"exquisite-fingerings" repository.

The JavaScript sources are shallowly embedded as Lean definitions:

* JS numbers are modelled exactly: integer-valued data (rows, columns, pad
  indices, MIDI notes, finger numbers) as `ℤ`/`ℕ`, comfort ratings as `ℚ`,
  and score arithmetic (which involves `Math.sqrt`) as `ℝ`.
* The JS remainder operator `%` truncates towards zero, so it is modelled
  by `Int.tmod`.
* JS `x || d` on numbers falls back to `d` when `x` is `undefined`, `null`
  or `0`; optional record fields are modelled with `Option` and the
  fallback by `jsOrInt` / `jsOrRat`, which also treat `some 0` as falsy.
* JS strings are modelled by their character lists (`String.data`), since
  the engine only splits on commas and trims ASCII whitespace.
* `Array.prototype.sort` (stable since ES2019) with comparator `c` is
  modelled by `List.mergeSort` with the relation `fun a b => c a b ≤ 0`.
* Division by zero yields `NaN` in JS; the Lean model returns `0` there.
  The only place this can happen (`avgRow` of an empty position list in
  the synthesizer's internal scorer) does not affect any statement below,
  which only concern the structure of such degenerate results.
-/

namespace EF

/-- JS `x || d` for an optional integer-valued number: `undefined`/`null`
and `0` both fall back to the default. -/
def jsOrInt (x : Option ℤ) (d : ℤ) : ℤ :=
  match x with
  | some v => if v = 0 then d else v
  | none => d

/-- JS `x || d` for an optional rational-valued number (comfort ratings). -/
def jsOrRat (x : Option ℚ) (d : ℚ) : ℚ :=
  match x with
  | some v => if v = 0 then d else v
  | none => d

/-- The JS idiom `((n % 12) + 12) % 12` with the truncating JS `%`. -/
def jsMod12 (n : ℤ) : ℤ := ((n.tmod 12) + 12).tmod 12

namespace Music

/-- src/src/core/music.js (part_002) `midiToPitchClass`:
`((midiNote % 12) + 12) % 12` with the truncating JS `%`. -/
def midiToPitchClass (midiNote : ℤ) : ℤ := ((midiNote.tmod 12) + 12).tmod 12

/-- The exact set of code points JS `String.prototype.trim` strips (and
that may surround a `StringNumericLiteral`): the ECMAScript WhiteSpace
and LineTerminator productions — TAB, LF, VT, FF, CR, SP, NBSP, Ogham
space mark, the typographic spaces U+2000-200A, LS, PS, NNBSP, MMSP,
ideographic space and ZWNBSP. -/
def jsWhitespaceChar (c : Char) : Bool :=
  decide (c.toNat ∈
    ([0x9, 0xA, 0xB, 0xC, 0xD, 0x20, 0xA0, 0x1680,
      0x2000, 0x2001, 0x2002, 0x2003, 0x2004, 0x2005, 0x2006, 0x2007,
      0x2008, 0x2009, 0x200A, 0x2028, 0x2029, 0x202F, 0x205F, 0x3000,
      0xFEFF] : List ℕ))

/-- JS `String.prototype.trim` on a character list: the ECMAScript
whitespace set stripped from both ends. -/
def trimChars (cs : List Char) : List Char :=
  ((cs.dropWhile jsWhitespaceChar).reverse.dropWhile jsWhitespaceChar).reverse

/-- JS `String.prototype.split(',')` on a character list. -/
def splitComma : List Char → List (List Char)
  | [] => [[]]
  | c :: rest =>
    match splitComma rest with
    | [] => [[]]
    | t :: ts => if c = ',' then [] :: t :: ts else (c :: t) :: ts

def digitVal (c : Char) : ℤ := ((c.toNat - '0'.toNat : ℕ) : ℤ)

def digitsVal (cs : List Char) : ℤ := cs.foldl (fun a c => a * 10 + digitVal c) 0

/-- JS `Number(s)` for a (pre-trimmed) nonempty token, on the integer
fragment of the `StringNumericLiteral` grammar: an optional sign followed
by decimal digits parses to that integer (exactly what JS produces for
magnitudes up to `2^53`, where doubles represent integers exactly);
everything else is mapped to `NaN` (`none`).  Full JS `Number` also
accepts hex, octal, binary, float, exponent and `Infinity` literals,
whose values are IEEE-754 doubles (including `NaN` for the residue of
`Infinity` mod 12) that this integer model does not represent — every
statement below about `parseCustomPitchClasses` is therefore scoped by
`integerFragment`, which excludes such tokens. -/
def strictNumber (cs : List Char) : Option ℤ :=
  match cs with
  | [] => none
  | '+' :: rest =>
    if rest ≠ [] ∧ rest.all Char.isDigit then some (digitsVal rest) else none
  | '-' :: rest =>
    if rest ≠ [] ∧ rest.all Char.isDigit then some (-(digitsVal rest)) else none
  | _ =>
    if cs.all Char.isDigit then some (digitsVal cs) else none

/-- JS `Number(s)` on a trimmed token: the empty string coerces to `0`
(a genuine JS quirk), otherwise parse as `strictNumber` (see there for
the scope of the integer model). -/
def jsNumber (cs : List Char) : Option ℤ :=
  if cs = [] then some 0 else strictNumber cs

/-- Characters that can occur in some JS numeric literal: decimal and hex
digits, the prefixes `x`/`X`/`o`/`O`, the exponent letters, the letters
of `Infinity`, signs and the decimal point.  A token containing any other
character cannot match the `StringNumericLiteral` grammar, so `Number`
yields `NaN` on it. -/
def numericLiteralChar (c : Char) : Bool :=
  c.isDigit ||
  decide (c ∈ (['a', 'b', 'c', 'd', 'e', 'f', 'A', 'B', 'C', 'D', 'E', 'F',
                'x', 'X', 'o', 'O', 'I', 'n', 'i', 't', 'y',
                '+', '-', '.'] : List Char))

/-- A trimmed token certainly parses to `NaN` under JS `Number`: it is
nonempty and contains a character that occurs in no numeric literal
(interior whitespace also certifies this, since after trimming any
remaining whitespace is interior to the token). -/
def certainlyNaNToken (t : List Char) : Bool :=
  !t.isEmpty && t.any (fun c => !numericLiteralChar c)

/-- One comma-separated token lies in the integer fragment: after JS
whitespace trimming it is blank (coercing to `0`), an optional-sign
decimal integer literal of magnitude at most `2^53` (parsed exactly by
JS), or certainly non-numeric (`NaN` under JS `Number`).  On such tokens
the integer model of `Number` agrees with the source exactly. -/
def tokenInIntegerFragment (tok : List Char) : Bool :=
  let t := trimChars tok
  t.isEmpty ||
  (match strictNumber t with
   | some n => decide (n.natAbs ≤ 9007199254740992)
   | none => false) ||
  certainlyNaNToken t

/-- A whole input string lies in the integer fragment: every
comma-separated token does.  Hex, float, exponent and `Infinity` tokens
(and decimal integers beyond `2^53`) are excluded: on those the source
manipulates IEEE-754 doubles the integer model does not represent. -/
def integerFragment (s : String) : Bool :=
  (splitComma s.data).all tokenInIntegerFragment

/-- src (part_002) `parseCustomPitchClasses`: guard out empty/blank input,
split on commas, coerce each trimmed token with `Number`, drop `NaN`s, and
collect `((n % 12) + 12) % 12` into a set. -/
def parseCustomPitchClasses (s : String) : Finset ℤ :=
  if s.data = [] ∨ trimChars s.data = [] then ∅
  else
    (((splitComma s.data).filterMap (fun tok => jsNumber (trimChars tok))).map
      jsMod12).toFinset

/-- The claim's reading of `parseCustomPitchClasses`: exactly the numeric
comma-separated tokens, normalized mod 12 into `[0,12)`, with malformed
(non-numeric, including empty) tokens silently dropped. -/
def claimedParseCustomPitchClasses (s : String) : Finset ℤ :=
  (((splitComma s.data).filterMap (fun tok => strictNumber (trimChars tok))).map
    (fun n => n % 12)).toFinset

/-- The amended reading: as the claim, except that empty or blank tokens
coerce to `0` (contributing pitch class `0`) instead of being dropped,
while an entirely empty or blank input still yields the empty set. -/
def amendedParseCustomPitchClasses (s : String) : Finset ℤ :=
  if trimChars s.data = [] then ∅
  else
    (((splitComma s.data).filterMap (fun tok => jsNumber (trimChars tok))).map
      (fun n => n % 12)).toFinset

end Music

namespace Grid

/-- src/src/core/grid.js `ROW_COUNT`. -/
def ROW_COUNT : ℕ := 11

/-- src/src/core/grid.js `getRowLength`: 6 pads on even rows, 5 on odd. -/
def getRowLength (row : ℕ) : ℕ := if row % 2 = 0 then 6 else 5

/-- src/src/core/grid.js `ROW_START` (intervals layout), built exactly as
the source IIFE: start from `[0]` and, for `r = 1 .. ROW_COUNT-1`, append
the previous start plus 4 (odd `r`, major third) or 3 (even `r`, minor
third). -/
def ROW_START : List ℕ :=
  (List.range' 1 (ROW_COUNT - 1)).foldl
    (fun starts r => starts ++ [starts.getD (r - 1) 0 + (if r % 2 = 1 then 4 else 3)])
    [0]

/-- src/src/core/grid.js `getPadIndex`: `ROW_START[row] + col`. -/
def getPadIndex (row col : ℕ) : ℕ := ROW_START.getD row 0 + col

/-- src/src/core/grid.js `getMidiNote`: `baseMidi + getPadIndex(row, col)`. -/
def getMidiNote (row col : ℕ) (baseMidi : ℤ) : ℤ := baseMidi + getPadIndex row col

/-- The row/start pairs scanned by `getRowCol`, in row order. -/
def rowScanList : List (ℕ × ℕ) :=
  (List.range ROW_COUNT).map (fun r => (r, ROW_START.getD r 0))

/-- The loop body of src/src/core/grid.js `getRowCol`: scan rows from the
bottom up and return the first row whose column range contains the index.
The source's `padIndex >= ROW_START[row]` guard and `col >= 0 && col <
getRowLength(row)` check are combined into the single condition below
(`col = padIndex - start` is nonnegative exactly when the guard holds). -/
def getRowColScan (padIndex : ℤ) : List (ℕ × ℕ) → Option (ℕ × ℕ)
  | [] => none
  | (row, start) :: rest =>
    if (start : ℤ) ≤ padIndex ∧ padIndex - start < getRowLength row then
      some (row, (padIndex - start).toNat)
    else getRowColScan padIndex rest

/-- src/src/core/grid.js `getRowCol`; the source's `throw` on an invalid
pad index is modelled by `none`. -/
def getRowCol (padIndex : ℤ) : Option (ℕ × ℕ) := getRowColScan padIndex rowScanList

/-- The reverse lookup at `idx` succeeds, lands inside the grid, maps back
to `idx` under `getPadIndex`, and picks the lowest row whose column range
contains `idx`. -/
def validResultAt (idx : ℤ) : Prop :=
  (getRowCol idx).isSome = true ∧
  ((getRowCol idx).getD (0, 0)).1 < ROW_COUNT ∧
  ((getRowCol idx).getD (0, 0)).2 < getRowLength ((getRowCol idx).getD (0, 0)).1 ∧
  (getPadIndex ((getRowCol idx).getD (0, 0)).1 ((getRowCol idx).getD (0, 0)).2 : ℤ) = idx ∧
  ∀ r < ((getRowCol idx).getD (0, 0)).1,
    ¬ ((ROW_START.getD r 0 : ℤ) ≤ idx ∧ idx - ROW_START.getD r 0 < getRowLength r)

instance (idx : ℤ) : Decidable (validResultAt idx) := by
  unfold validResultAt
  infer_instance

end Grid

namespace Exquis

/-- Modelled from the spec: the file `src/devices/exquis/exquis-geometry.js`
defining `ROW_START_CHROMATIC` is not present in the source snapshot (only
its importers are); §3 of the spec defines the chromatic layout by
`index = cumulative_row_start[row] + col`, i.e. row starts are cumulative
row lengths, matching the values asserted by the repository's grid tests
and architecture notes (`[0, 6, 11, 17, 22, 28, 33, 39, 44, 50, 55]`). -/
def ROW_START_CHROMATIC : List ℕ :=
  (List.range Grid.ROW_COUNT).map (fun r => ((List.range r).map Grid.getRowLength).sum)

/-- Modelled from the spec: `ROW_START_INTERVALS` of the absent
`exquis-geometry.js` is the same alternating +4/+3 thirds table as
`core/grid.js`'s `ROW_START`. -/
def ROW_START_INTERVALS : List ℕ := Grid.ROW_START

inductive GridMode where
  | intervals
  | chromatic
deriving DecidableEq

/-- Model of `ExquisDevice._getRowStart`: pick the row-start table for the current
grid mode. -/
def rowStartFor : GridMode → List ℕ
  | GridMode.chromatic => ROW_START_CHROMATIC
  | GridMode.intervals => ROW_START_INTERVALS

/-- Model of `ExquisDevice.getPadIndex`: `ROW_START[row] + col` for the mode's table. -/
def getPadIndex (mode : GridMode) (row col : ℕ) : ℕ :=
  (rowStartFor mode).getD row 0 + col

/-- Model of `ExquisDevice.getMidiNote`: `baseMidi + getPadIndex(row, col)`. -/
def getMidiNote (mode : GridMode) (row col : ℕ) (baseMidi : ℤ) : ℤ :=
  baseMidi + getPadIndex mode row col

end Exquis

/-- One position of a captured handprint (chord-matcher input shape):
`{row, col, padIndex, midiNote, finger}`, where `midiNote` may be absent. -/
structure HpPos where
  row : ℤ
  col : ℤ
  padIndex : ℤ
  midiNote : Option ℤ := none
  finger : ℤ
deriving DecidableEq

/-- A captured handprint.  Fields the engine never reads default to
neutral values; `measurements` is the cached finger-pair distance map. -/
structure Handprint where
  id : ℕ := 0
  hand : String
  comfortRating : Option ℚ := none
  baseMidi : Option ℤ := none
  midiDevice : Option String := none
  capturedAt : Option String := none
  positions : List HpPos
  measurements : Option (List (String × ℝ)) := none

/-- One position of a matcher-produced candidate fingering: the stored or
derived MIDI note is resolved and the pitch class attached. -/
structure MatchPos where
  row : ℤ
  col : ℤ
  padIndex : ℤ
  midiNote : ℤ
  finger : ℤ
  pitchClass : ℤ
deriving DecidableEq

/-- A candidate fingering as built by the chord matcher and consumed by the
scorer.  The scorer's output fields (`score`, `comfortScore`,
`geometricScore`, `ergonomicScore`) are added dynamically in JS; they are
modelled as fields defaulting to `0` (the matcher initializes `score`,
`geometricScore` and `ergonomicScore` to `0` itself). -/
structure Fingering where
  handprintId : ℕ := 0
  hand : String := ""
  comfortRating : Option ℚ := none
  baseMidi : ℤ := 48
  midiDevice : Option String := none
  capturedAt : Option String := none
  positions : List MatchPos
  score : ℝ := 0
  comfortScore : ℝ := 0
  geometricScore : ℝ := 0
  ergonomicScore : ℝ := 0

namespace Matcher

/-- Helper for `generateSubsets`: every way to pick one element of a list
together with the elements after it (the source's `for i = start ...` loop). -/
def pickEach {α : Type} : List α → List (α × List α)
  | [] => []
  | x :: xs => (x, xs) :: pickEach xs

/-- The `backtrack` recursion of src/src/analysis/chord-matcher.js
`generateSubsets`: at each node emit `current` when its size is within
bounds, stop at `maxSize`, and otherwise extend `current` with each later
element.  The extra `fuel` argument (initialized to the array length,
an upper bound on the recursion depth) makes the recursion structural;
the `fuel = 0` case is only ever reached with `rest = []`. -/
def subsAux {α : Type} (minSize maxSize : ℕ) : ℕ → List α → List α → List (List α)
  | 0, current, _ =>
    if minSize ≤ current.length ∧ current.length ≤ maxSize then [current] else []
  | fuel + 1, current, rest =>
    let size := current.length
    let emit := if minSize ≤ size ∧ size ≤ maxSize then [current] else []
    if size = maxSize then emit
    else emit ++ (pickEach rest).flatMap
      (fun p => subsAux minSize maxSize fuel (current ++ [p.1]) p.2)

/-- src/src/analysis/chord-matcher.js `generateSubsets`. -/
def generateSubsets {α : Type} (arr : List α) (minSize maxSize : ℕ) : List (List α) :=
  subsAux minSize maxSize arr.length [] arr

/-- src/src/analysis/chord-matcher.js `findChordFingerings`.  The JS
`hand` parameter defaults to `null`; its truthiness test is modelled on
`Option String` (with the empty string also falsy).  The exact-match test
`pitchSet.size === targetSet.size && [...pitchSet].every(pc =>
targetSet.has(pc))` is the condition of the `if` below. -/
def findChordFingerings (targetPitchClasses : List ℤ) (handprints : List Handprint)
    (baseMidi : ℤ) (hand : Option String) : List Fingering :=
  let targetSet : Finset ℤ := targetPitchClasses.toFinset
  let filteredHandprints :=
    match hand with
    | some h => if h = "" then handprints else handprints.filter (fun hp => hp.hand = h)
    | none => handprints
  filteredHandprints.flatMap (fun hp =>
    (generateSubsets hp.positions 3 5).filterMap (fun subset =>
      let pitchClasses := subset.map (fun pos =>
        Music.midiToPitchClass (jsOrInt pos.midiNote (baseMidi + pos.padIndex)))
      let pitchSet : Finset ℤ := pitchClasses.toFinset
      if pitchSet.card = targetSet.card ∧ pitchSet ⊆ targetSet then
        some { handprintId := hp.id
               hand := hp.hand
               comfortRating := some (jsOrRat hp.comfortRating 50)
               baseMidi := jsOrInt hp.baseMidi baseMidi
               midiDevice := hp.midiDevice
               capturedAt := hp.capturedAt
               positions := subset.map (fun pos =>
                 { row := pos.row
                   col := pos.col
                   padIndex := pos.padIndex
                   midiNote := jsOrInt pos.midiNote (baseMidi + pos.padIndex)
                   finger := pos.finger
                   pitchClass := Music.midiToPitchClass
                     (jsOrInt pos.midiNote (baseMidi + pos.padIndex)) })
               score := 0
               geometricScore := 0
               ergonomicScore := 0 }
      else none))

/-- Adjacent-difference check used by `usesConsecutiveFingers`: every
element is its predecessor plus one. -/
def consecChain : List ℤ → Bool
  | [] => true
  | [_] => true
  | a :: b :: rest => decide (b = a + 1) && consecChain (b :: rest)

/-- src/src/analysis/chord-matcher.js `usesConsecutiveFingers`: sort the
finger numbers ascending and check they increase by exactly one. -/
def usesConsecutiveFingers (positions : List MatchPos) : Bool :=
  consecChain ((positions.map (fun p => p.finger)).mergeSort (fun a b => decide (a ≤ b)))

/-- All ordered pairs `(l[i], l[j])` with `i < j`, in the double-loop order
of the source. -/
def pairsOf {α : Type} : List α → List (α × α)
  | [] => []
  | x :: xs => xs.map (fun y => (x, y)) ++ pairsOf xs

/-- src/src/analysis/chord-matcher.js `calculateSpan`: maximum Euclidean
row/col distance over all pairs of positions, folded from `0`. -/
noncomputable def calculateSpan (positions : List MatchPos) : ℝ :=
  (pairsOf positions).foldl
    (fun maxDistance p =>
      let dx : ℝ := ((p.2.col - p.1.col : ℤ) : ℝ)
      let dy : ℝ := ((p.2.row - p.1.row : ℤ) : ℝ)
      max maxDistance (Real.sqrt (dx * dx + dy * dy)))
    0

end Matcher

namespace Scorer

/-- src/src/analysis/fingering-scorer.js `scoreComfort`:
`fingering.comfortRating || 50`. -/
def scoreComfort (f : Fingering) : ℝ := ((jsOrRat f.comfortRating 50 : ℚ) : ℝ)

/-- The piecewise span scoring inlined in `scoreGeometry` (the branch
comment "85 at span=5" in the source misstates its own formula, which
yields 70 there). -/
noncomputable def spanScore (span : ℝ) : ℝ :=
  if span ≤ 3 then 100
  else if span ≤ 5 then 100 - (span - 3) * 15
  else if span ≤ 7 then 70 - (span - 5) * 15
  else max 0 (40 - (span - 7) * 10)

/-- Row span (`maxRow - minRow`) of a fingering's positions, as computed
by `scoreGeometry`.  JS spreads the row list into `Math.min`/`Math.max`;
on an empty list those give infinities, which the `ℤ` model cannot
represent — the `[]` case returns `0`, which like JS lands in the
`rowSpan ≤ 2` branch of the compactness score. -/
def rowSpanOf (positions : List MatchPos) : ℤ :=
  match positions.map (fun p => p.row) with
  | [] => 0
  | r :: rs => rs.foldl max r - rs.foldl min r

/-- The compactness term inlined in `scoreGeometry`. -/
noncomputable def compactnessScore (rowSpan : ℤ) : ℝ :=
  if rowSpan ≤ 2 then 100 else max 0 (100 - ((rowSpan : ℝ) - 2) * 20)

/-- src/src/analysis/fingering-scorer.js `scoreGeometry`: average of the
piecewise span score and the compactness score. -/
noncomputable def scoreGeometry (f : Fingering) : ℝ :=
  (spanScore (Matcher.calculateSpan f.positions) + compactnessScore (rowSpanOf f.positions)) / 2

/-- src/src/analysis/fingering-scorer.js `scoreErgonomics`: start at 50,
add bonuses/penalties, clamp into `[0, 100]`. -/
def scoreErgonomics (f : Fingering) : ℝ :=
  let score : ℝ := 50
  let score := if Matcher.usesConsecutiveFingers f.positions then score + 30 else score
  let fingerCount := f.positions.length
  let score :=
    if fingerCount = 3 ∨ fingerCount = 4 then score + 20
    else if fingerCount = 5 then score + 10
    else score
  let fingers := (f.positions.map (fun p => p.finger)).mergeSort (fun a b => decide (a ≤ b))
  let score :=
    if 1 ∈ fingers ∧ 5 ∈ fingers ∧ 2 ∉ fingers ∧ 3 ∉ fingers ∧ 4 ∉ fingers then score - 30
    else score
  let score :=
    if fingers.length = 2 ∧ fingers.getD 0 0 = 1 ∧ fingers.getD 1 0 = 5 then score - 20
    else score
  max 0 (min 100 score)

/-- JS `Math.round`: round half towards positive infinity. -/
noncomputable def jsRound (x : ℝ) : ℤ := ⌊x + 1 / 2⌋

/-- src/src/analysis/fingering-scorer.js `scoreFingering`: the three
sub-scores, their 0.4/0.3/0.3 weighted total, and the rounded copies
spread onto a fresh object. -/
noncomputable def scoreFingering (f : Fingering) : Fingering :=
  let comfortScore := scoreComfort f
  let geometricScore := scoreGeometry f
  let ergonomicScore := scoreErgonomics f
  let totalScore := comfortScore * 0.4 + geometricScore * 0.3 + ergonomicScore * 0.3
  { f with
    score := ((jsRound totalScore : ℤ) : ℝ)
    comfortScore := ((jsRound comfortScore : ℤ) : ℝ)
    geometricScore := ((jsRound geometricScore : ℤ) : ℝ)
    ergonomicScore := ((jsRound ergonomicScore : ℤ) : ℝ) }

/-- src/src/analysis/fingering-scorer.js `rankFingerings`: score a fresh
copy of every fingering, then stable-sort descending by total score. -/
noncomputable def rankFingerings (fingerings : List Fingering) : List Fingering :=
  (fingerings.map scoreFingering).mergeSort (fun a b => decide (b.score ≤ a.score))

end Scorer

namespace Patterns

/-- Aggregated statistics for one finger pair. -/
structure FDStat where
  avg : ℝ
  stdDev : ℝ
  samples : ℕ

/-- One finger position relative to a chord shape's anchor. -/
structure RelPos where
  finger : ℤ
  rowOffset : ℤ
  colOffset : ℤ
  distance : ℝ

/-- One extracted relative-geometry chord shape. -/
structure ChordShape where
  numFingers : ℕ
  fingers : List ℤ
  geometry : List RelPos
  comfort : ℚ

/-- src/src/analysis/pattern-extractor.js pattern statistics object.  JS
object maps are modelled as association lists in key-insertion order
(`fingerDistances`, `fingerAssignments`); the per-position finger-count
objects have small-integer keys, which JS iterates in ascending numeric
order, so they are kept sorted by finger. -/
structure PatternStats where
  hand : Option String
  fingerDistances : List (String × FDStat)
  spanDistances : List ℝ
  fingerAssignments : List (String × List (ℤ × ℕ))
  chordShapes : List ChordShape
  avgComfort : ℝ
  avgSpan : ℝ
  spanStdDev : ℝ

/-- JS truthiness of the optional `hand` filter argument (`null`,
`undefined` and `""` are falsy). -/
def handTruthy : Option String → Bool
  | none => false
  | some h => decide (h ≠ "")

/-- Append a sample to the list held under `k`, creating the key at the
end on first use (JS object key-insertion order). -/
def pushAssoc (m : List (String × List ℝ)) (k : String) (v : ℝ) :
    List (String × List ℝ) :=
  if m.any (fun p => p.1 = k) then
    m.map (fun p => if p.1 = k then (p.1, p.2 ++ [v]) else p)
  else m ++ [(k, [v])]

/-- Increment the count of finger `f`, keeping the list sorted by finger
(mirroring JS ascending iteration order of integer-like object keys). -/
def bumpFinger (counts : List (ℤ × ℕ)) (f : ℤ) : List (ℤ × ℕ) :=
  match counts with
  | [] => [(f, 1)]
  | (g, c) :: rest =>
    if f = g then (g, c + 1) :: rest
    else if f < g then (f, 1) :: (g, c) :: rest
    else (g, c) :: bumpFinger rest f

/-- Bump the count of `f` under the position key `k`, creating the key at
the end on first use. -/
def bumpPosAssoc (m : List (String × List (ℤ × ℕ))) (k : String) (f : ℤ) :
    List (String × List (ℤ × ℕ)) :=
  if m.any (fun p => p.1 = k) then
    m.map (fun p => if p.1 = k then (p.1, bumpFinger p.2 f) else p)
  else m ++ [(k, bumpFinger [] f)]

/-- The JS template key `r${row}c${col}`. -/
def posKey (row col : ℤ) : String :=
  "r" ++ toString row ++ "c" ++ toString col

/-- The inline max-span loop of `extractPatterns` (raw row/col Euclidean
distance over all pairs, folded from 0). -/
noncomputable def handprintSpan (positions : List HpPos) : ℝ :=
  (Matcher.pairsOf positions).foldl
    (fun maxSpan p =>
      let dx : ℝ := ((p.2.col - p.1.col : ℤ) : ℝ)
      let dy : ℝ := ((p.2.row - p.1.row : ℤ) : ℝ)
      max maxSpan (Real.sqrt (dx * dx + dy * dy)))
    0

/-- src/src/analysis/pattern-extractor.js `extractChordShape`: anchor the
finger-sorted positions at the lowest-finger position and record relative
geometry.  The sorted list is nonempty whenever the length guard passes;
the unreachable `[]` branch returns `none`. -/
noncomputable def extractChordShape (hp : Handprint) : Option ChordShape :=
  if hp.positions.length < 3 then none
  else
    match hp.positions.mergeSort (fun a b => decide (a.finger ≤ b.finger)) with
    | [] => none
    | anchor :: rest =>
      some { numFingers := hp.positions.length
             fingers := (anchor :: rest).map (fun p => p.finger)
             geometry := (anchor :: rest).map (fun pos =>
               { finger := pos.finger
                 rowOffset := pos.row - anchor.row
                 colOffset := pos.col - anchor.col
                 distance := Real.sqrt
                   ((((pos.row - anchor.row : ℤ) : ℝ)) ^ 2 +
                    (((pos.col - anchor.col : ℤ) : ℝ)) ^ 2) })
             comfort := jsOrRat hp.comfortRating 50 }

/-- Mean of a list of reals (`reduce((a,b) => a+b, 0) / length`; the
empty case — division by zero — is never reached on the paths below). -/
noncomputable def listAvg (l : List ℝ) : ℝ := l.sum / l.length

/-- Population variance about `avg`
(`reduce((sum,d) => sum + (d-avg)^2, 0) / length`). -/
noncomputable def listVar (l : List ℝ) (avg : ℝ) : ℝ :=
  ((l.map (fun d => (d - avg) ^ 2)).sum) / l.length

/-- Per-handprint accumulator state of the `extractPatterns` loop. -/
structure PatternAcc where
  fingerDistancesRaw : List (String × List ℝ) := []
  spanDistances : List ℝ := []
  fingerAssignments : List (String × List (ℤ × ℕ)) := []
  chordShapes : List ChordShape := []
  totalComfort : ℝ := 0

/-- One iteration of the `extractPatterns` loop body. -/
noncomputable def stepHandprint (acc : PatternAcc) (hp : Handprint) : PatternAcc :=
  let acc := { acc with
    totalComfort := acc.totalComfort + ((jsOrRat hp.comfortRating 50 : ℚ) : ℝ) }
  let acc :=
    match hp.measurements with
    | some ms =>
      let fd := ms.foldl (fun m (pr : String × ℝ) => pushAssoc m pr.1 pr.2)
        acc.fingerDistancesRaw
      { acc with fingerDistancesRaw := fd }
    | none => acc
  let acc := { acc with spanDistances := acc.spanDistances ++ [handprintSpan hp.positions] }
  let fa := hp.positions.foldl
    (fun m pos => bumpPosAssoc m (posKey pos.row pos.col) pos.finger)
    acc.fingerAssignments
  let acc := { acc with fingerAssignments := fa }
  match extractChordShape hp with
  | some shape => { acc with chordShapes := acc.chordShapes ++ [shape] }
  | none => acc

/-- src/src/analysis/pattern-extractor.js `extractPatterns`: filter by
hand, return `null` (`none`) for an empty store, otherwise accumulate the
per-handprint data and aggregate means and standard deviations. -/
noncomputable def extractPatterns (handprints : List Handprint) (hand : Option String) :
    Option PatternStats :=
  let filtered :=
    if handTruthy hand then handprints.filter (fun hp => some hp.hand = hand)
    else handprints
  if filtered.length = 0 then none
  else
    let acc := filtered.foldl stepHandprint {}
    let avgSpan := listAvg acc.spanDistances
    some { hand := hand
           fingerDistances := acc.fingerDistancesRaw.map (fun p =>
             (p.1, FDStat.mk (listAvg p.2) (Real.sqrt (listVar p.2 (listAvg p.2))) p.2.length))
           spanDistances := acc.spanDistances
           fingerAssignments := acc.fingerAssignments
           chordShapes := acc.chordShapes
           avgComfort := acc.totalComfort / filtered.length
           avgSpan := avgSpan
           spanStdDev := Real.sqrt (listVar acc.spanDistances avgSpan) }

/-- src/src/analysis/pattern-extractor.js `suggestFingerForPosition`:
look up the counts at key `r{row}c{col}` and return the first finger with
the strictly largest count (`null`/`none` when the key is unknown). -/
def suggestFingerForPosition (row col : ℕ) (patterns : PatternStats) : Option ℤ :=
  match patterns.fingerAssignments.find? (fun pr => pr.1 = posKey row col) with
  | none => none
  | some (_, counts) =>
    (counts.foldl
      (fun (best : Option ℤ × ℕ) fc => if fc.2 > best.2 then (some fc.1, fc.2) else best)
      (none, 0)).1

end Patterns

namespace Synth

/-- One pad found by the synthesizer's grid scan. -/
structure Pad where
  row : ℕ
  col : ℕ
  padIndex : ℕ
  midiNote : ℤ
  pc : ℤ
deriving DecidableEq

/-- A pad with finger and hand attached (`{...pad, finger, hand}`). -/
structure SynthPos extends Pad where
  finger : ℤ
  hand : String
deriving DecidableEq

/-- A synthesized fingering
 (`{hand, baseMidi, positions, targetPitchClasses, score}`). -/
structure Fingering where
  hand : String
  baseMidi : ℤ
  positions : List SynthPos
  targetPitchClasses : List ℤ
  score : ℝ := 0

/-- The row-major grid scan of `findPadCombinations`: rows `0..maxRow`,
columns `0..(6 or 5)` as written inline in the source. -/
def scanPads (baseMidi : ℤ) (maxRow : ℕ) : List Pad :=
  (List.range (maxRow + 1)).flatMap (fun row =>
    (List.range (if row % 2 = 0 then 6 else 5)).map (fun col =>
      let padIndex := Grid.getPadIndex row col
      let midiNote := baseMidi + padIndex
      { row := row, col := col, padIndex := padIndex, midiNote := midiNote,
        pc := Music.midiToPitchClass midiNote }))

/-- The key set of the JS `Map` `padsByPC`: first-occurrence order with
duplicates collapsed. -/
def buildKeys (tpc : List ℤ) : List ℤ :=
  tpc.foldl (fun ks pc => if pc ∈ ks then ks else ks ++ [pc]) []

/-- The `generateCombos` backtracking of `findPadCombinations`: one pad
(of the first three found) per pitch class, outer loop on the earlier key. -/
def generateCombos (padsByPC : ℤ → List Pad) : List ℤ → List (List Pad)
  | [] => [[]]
  | pc :: rest =>
    ((padsByPC pc).take 3).flatMap (fun pad =>
      (generateCombos padsByPC rest).map (fun combo => pad :: combo))

/-- src/src/analysis/fingering-synthesizer.js `findPadCombinations`:
scan the grid for pads matching each target pitch class (the `Map` entry
for `pc` collects the scanned pads with that pitch class, in scan order),
then take the Cartesian product capped at three pads per pitch class. -/
def findPadCombinations (targetPitchClasses : List ℤ) (baseMidi : ℤ) (maxRow : ℕ) :
    List (List Pad) :=
  let pads := scanPads baseMidi maxRow
  generateCombos (fun pc => pads.filter (fun p => p.pc = pc)) (buildKeys targetPitchClasses)

/-- src/src/analysis/fingering-synthesizer.js `assignFingers`: sort pads
bottom-up (columns ascending for the right hand, descending for the left),
then assign the pattern-suggested finger, falling back (also on a falsy
`0`) to `min(index + 1, 5)`. -/
def assignFingers (pads : List Pad) (hand : String)
    (patterns : Option Patterns.PatternStats) : List SynthPos :=
  if pads.length = 0 then []
  else
    let sortedPads := pads.mergeSort (fun a b =>
      if a.row ≠ b.row then decide (a.row ≤ b.row)
      else if hand = "right" then decide (a.col ≤ b.col) else decide (b.col ≤ a.col))
    sortedPads.mapIdx (fun index pad =>
      let suggested : Option ℤ :=
        match patterns with
        | some p => Patterns.suggestFingerForPosition pad.row pad.col p
        | none => none
      let finger : ℤ :=
        match suggested with
        | some f => if f = 0 then min ((index : ℤ) + 1) 5 else f
        | none => min ((index : ℤ) + 1) 5
      { toPad := pad, finger := finger, hand := hand })

/-- The pattern-extractor's own `calculateSpan` (raw row/col Euclidean
distance), as used on candidate positions by `calculatePatternSimilarity`. -/
noncomputable def patternSpan (positions : List SynthPos) : ℝ :=
  (Matcher.pairsOf positions).foldl
    (fun maxSpan p =>
      let dx : ℝ := (((p.2.col : ℤ) - p.1.col : ℤ) : ℝ)
      let dy : ℝ := (((p.2.row : ℤ) - p.1.row : ℤ) : ℝ)
      max maxSpan (Real.sqrt (dx * dx + dy * dy)))
    0

/-- src/src/analysis/pattern-extractor.js `calculatePatternSimilarity`:
best score over learned chord shapes (finger-count bonus, span closeness
to the learned average, half the shape's comfort), capped at 100. -/
noncomputable def calculatePatternSimilarity (candidate : Fingering)
    (patterns : Option Patterns.PatternStats) : ℝ :=
  match patterns with
  | none => 50
  | some p =>
    if p.chordShapes.length = 0 then 50
    else
      let bestScore := p.chordShapes.foldl
        (fun best shape =>
          let score : ℝ :=
            (if candidate.positions.length = shape.numFingers then 20 else 0) +
            max 0 (30 - |patternSpan candidate.positions - p.avgSpan| * 10) +
            ((shape.comfort : ℝ)) / 2
          max best score)
        0
      min 100 bestScore

/-- src/src/core/grid.js `getCellCenter` (portrait hex geometry; pad
width 38, half-offset 19 on odd rows, vertical pitch 33, padding 48). -/
def getCellCenter (row col : ℕ) : ℝ × ℝ :=
  (((col : ℝ)) * 38 + (if row % 2 ≠ 0 then (19 : ℝ) else 0) + 48,
   ((Grid.ROW_COUNT : ℝ) - 1 - (row : ℝ)) * 33 + 48)

/-- src/src/core/grid.js `getGridDistance`: Euclidean distance between
rendered cell centers divided by the pad width. -/
noncomputable def getGridDistance (row1 col1 row2 col2 : ℕ) : ℝ :=
  let c1 := getCellCenter row1 col1
  let c2 := getCellCenter row2 col2
  Real.sqrt ((c2.1 - c1.1) ^ 2 + (c2.2 - c1.2) ^ 2) / 38

/-- The synthesizer's internal `calculateSpan`: maximum `getGridDistance`
over all pairs of positions. -/
noncomputable def calculateSpan (positions : List SynthPos) : ℝ :=
  (Matcher.pairsOf positions).foldl
    (fun maxSpan p =>
      max maxSpan (getGridDistance p.1.row p.1.col p.2.row p.2.col))
    0

/-- src/src/analysis/fingering-synthesizer.js local `scoreFingering`:
blend with pattern similarity when patterns exist, add span and low-row
heuristics, clamp into `[0, 100]`.  (On an empty position list JS would
produce `NaN` through `avgRow = 0/0`; the Lean model's division by zero
yields `0` — no statement below depends on the score of such a
degenerate fingering.) -/
noncomputable def scoreFingering (fingering : Fingering)
    (patterns : Option Patterns.PatternStats) : ℝ :=
  let score : ℝ := 50
  let score :=
    match patterns with
    | some _ => (score + calculatePatternSimilarity fingering patterns) / 2
    | none => score
  let span := calculateSpan fingering.positions
  let score :=
    if span < 1.5 then score + 10
    else if span ≤ 3 then score + 5
    else if span > 4 then score - 20
    else score
  let avgRow := ((fingering.positions.map (fun p => (p.row : ℝ))).sum) /
    (fingering.positions.length : ℝ)
  let score := score + max 0 (10 - avgRow * 2)
  min 100 (max 0 score)

/-- src/src/analysis/fingering-synthesizer.js `synthesizeFingerings`:
extract patterns, enumerate pad combinations (empty result when none),
assign fingers and score each combination, sort descending by score and
return the top `maxSuggestions`. -/
noncomputable def synthesizeFingerings (targetPitchClasses : List ℤ)
    (handprints : List Handprint) (baseMidi : ℤ) (hand : String)
    (maxSuggestions : ℕ) : List Fingering :=
  let patterns := Patterns.extractPatterns handprints (some hand)
  let combinations := findPadCombinations targetPitchClasses baseMidi 5
  if combinations.length = 0 then []
  else
    let fingerings := combinations.map (fun combo =>
      let positions := assignFingers combo hand patterns
      let f : Fingering :=
        { hand := hand, baseMidi := baseMidi, positions := positions,
          targetPitchClasses := targetPitchClasses, score := 0 }
      { f with score := scoreFingering f patterns })
    (fingerings.mergeSort (fun a b => decide (b.score ≤ a.score))).take maxSuggestions

end Synth

namespace HeapModel

/-!
A small allocation model for the frame property of `rankFingerings`.
JS objects live on a heap; the heap is modelled as a list of `Fingering`
records, an address is an index into it, and allocation appends.  The
source maps `scoreFingering` (which builds a *fresh* object by spread)
over the input array and sorts only the freshly mapped array, so at heap
level each step reads an input address and allocates the scored copy at a
new address; had the source instead mutated a fingering in place
(`f.score = ...`), the corresponding model would overwrite an existing
address and the frame theorem below would fail.
-/

/-- The object heap: addresses are list indices. -/
abbrev Heap : Type := List Fingering

/-- Allocate a fresh object, returning the new heap and its address. -/
def alloc (h : Heap) (f : Fingering) : Heap × ℕ :=
  (List.append h [f], List.length h)

/-- Read the object at an address. -/
def read (h : Heap) (a : ℕ) : Option Fingering := h[a]?

/-- One step of the `fingerings.map(f => scoreFingering(f))` phase: read
the object at the input address and allocate its scored copy (an invalid
address is skipped; JS would throw there). -/
noncomputable def mapStep (acc : Heap × List ℕ) (r : ℕ) : Heap × List ℕ :=
  match read acc.1 r with
  | some f =>
    let al := alloc acc.1 (Scorer.scoreFingering f)
    (al.1, acc.2 ++ [al.2])
  | none => acc

/-- The `fingerings.map(f => scoreFingering(f))` phase over all input
addresses. -/
noncomputable def mapPhase (h : Heap) (refs : List ℕ) : Heap × List ℕ :=
  refs.foldl mapStep (h, [])

/-- The whole of `rankFingerings` at heap level: map to fresh scored copies, then sort
(the in-place JS sort permutes only the freshly mapped array). -/
noncomputable def rankFingeringsH (h : Heap) (refs : List ℕ) : Heap × List ℕ :=
  let hm := mapPhase h refs
  (hm.1,
   hm.2.mergeSort (fun a b =>
     decide (((read hm.1 b).map Fingering.score).getD 0 ≤
             ((read hm.1 a).map Fingering.score).getD 0)))

end HeapModel

/-! Helper lemmas about the embedded definitions. -/

theorem neg_tmod' (a b : ℤ) : (-a).tmod b = -(a.tmod b) := by
  rw [Int.tmod_def, Int.tmod_def, Int.neg_tdiv]
  ring

theorem tmod_twelve_lt (n : ℤ) : n.tmod 12 < 12 :=
  Int.tmod_lt_of_pos n (by norm_num)

theorem neg_twelve_lt_tmod (n : ℤ) : -12 < n.tmod 12 := by
  rcases le_or_lt 0 n with h | h
  · have := Int.tmod_nonneg 12 h
    omega
  · have h1 : n.tmod 12 = -((-n).tmod 12) := by
      rw [← neg_tmod', neg_neg]
    have h2 : (-n).tmod 12 < 12 := Int.tmod_lt_of_pos (-n) (by norm_num)
    omega

/-- The JS double-remainder normalization agrees with mathematical
(Euclidean) mod 12 on every integer, including negatives. -/
theorem jsMod12_eq_emod (n : ℤ) : jsMod12 n = n % 12 := by
  unfold jsMod12
  have hub := tmod_twelve_lt n
  have hlb := neg_twelve_lt_tmod n
  have h0 : (0:ℤ) ≤ n.tmod 12 + 12 := by omega
  rw [Int.tmod_eq_emod h0 (by norm_num)]
  have hd : n.tmod 12 = n - 12 * (n.tdiv 12) := Int.tmod_def n 12
  omega

theorem jsMod12_nonneg (n : ℤ) : 0 ≤ jsMod12 n := by
  rw [jsMod12_eq_emod]
  exact Int.emod_nonneg n (by norm_num)

theorem jsMod12_lt (n : ℤ) : jsMod12 n < 12 := by
  rw [jsMod12_eq_emod]
  exact Int.emod_lt_of_pos n (by norm_num)

theorem Music.midiToPitchClass_eq_emod (m : ℤ) : midiToPitchClass m = m % 12 :=
  jsMod12_eq_emod m

theorem Grid.ROW_START_eq : Grid.ROW_START = [0, 4, 7, 11, 14, 18, 21, 25, 28, 32, 35] := by
  decide

theorem Grid.getRowColScan_eq_none (idx : ℤ) (rows : List (ℕ × ℕ))
    (h : ∀ p ∈ rows, ¬ ((p.2 : ℤ) ≤ idx ∧ idx - p.2 < Grid.getRowLength p.1)) :
    Grid.getRowColScan idx rows = none := by
  induction rows with
  | nil => rfl
  | cons p rest ih =>
    obtain ⟨row, start⟩ := p
    rw [Grid.getRowColScan, if_neg (h (row, start) (List.mem_cons_self _ _))]
    exact ih (fun q hq => h q (List.mem_cons_of_mem _ hq))

theorem Grid.getRowCol_eq_none_of_neg (idx : ℤ) (h : idx < 0) : Grid.getRowCol idx = none := by
  refine Grid.getRowColScan_eq_none idx Grid.rowScanList (fun p hp => ?_)
  rintro ⟨h1, h2⟩
  have : (0 : ℤ) ≤ (p.2 : ℤ) := Int.ofNat_nonneg p.2
  omega

theorem Grid.getRowCol_eq_none_of_gt (idx : ℤ) (h : 40 < idx) : Grid.getRowCol idx = none := by
  refine Grid.getRowColScan_eq_none idx Grid.rowScanList (fun p hp => ?_)
  have hlist : Grid.rowScanList =
      [(0, 0), (1, 4), (2, 7), (3, 11), (4, 14), (5, 18), (6, 21), (7, 25),
       (8, 28), (9, 32), (10, 35)] := by decide
  rw [hlist] at hp
  fin_cases hp <;> simp only [Grid.getRowLength] <;> norm_num <;> omega

/-- C6: in hex intervals mode, for every valid position `(row, col)` the
index `idx = getPadIndex row col` reverse-maps to some valid position
`(row', col')` with `getPadIndex row' col' = idx`, and `row'` is the
lowest row whose column range contains `idx`. -/
theorem C6_intervals_roundtrip_consistent :
    ∀ row < Grid.ROW_COUNT, ∀ col < Grid.getRowLength row,
      Grid.validResultAt ((Grid.getPadIndex row col : ℕ) : ℤ) := by
  decide

theorem C6_intervals_roundtrip_consistent_witness :
    Grid.validResultAt ((Grid.getPadIndex 1 0 : ℕ) : ℤ) :=
  C6_intervals_roundtrip_consistent 1 (by decide) 0 (by decide)

/-- C7: on the hex grid in chromatic mode with `baseMidi = 48`,
`getMidiNote(0,0) = 48` and `getMidiNote(1,0) = 54`, i.e. row 1 starts at
pad index 6. -/
theorem C7_chromatic_scenario :
    Exquis.getMidiNote Exquis.GridMode.chromatic 0 0 48 = 48 ∧
    Exquis.getMidiNote Exquis.GridMode.chromatic 1 0 48 = 54 ∧
    Exquis.ROW_START_CHROMATIC.getD 1 0 = 6 := by
  decide

/-- C9: in hex intervals mode the range of `getPadIndex` over valid
positions is exactly `[0, 40]` with no gaps, `getRowCol` returns a valid,
self-consistent position for every integer in `[0, 40]`, and it hits the
`Invalid pad index` error branch (modelled by `none`) exactly for
integers outside `[0, 40]`. -/
theorem C9_getRowCol_total_on_range :
    (∀ r < Grid.ROW_COUNT, ∀ c < Grid.getRowLength r, Grid.getPadIndex r c ≤ 40) ∧
    (∀ n : ℕ, n ≤ 40 →
      (∃ r < Grid.ROW_COUNT, ∃ c < Grid.getRowLength r, Grid.getPadIndex r c = n) ∧
      Grid.validResultAt (n : ℤ)) ∧
    (∀ idx : ℤ, Grid.getRowCol idx = none ↔ idx < 0 ∨ 40 < idx) := by
  have h1 : ∀ r < Grid.ROW_COUNT, ∀ c < Grid.getRowLength r,
      Grid.getPadIndex r c ≤ 40 := by decide
  have h2 : ∀ n : ℕ, n ≤ 40 →
      (∃ r < Grid.ROW_COUNT, ∃ c < Grid.getRowLength r, Grid.getPadIndex r c = n) ∧
      Grid.validResultAt (n : ℤ) := by decide
  refine ⟨h1, h2, fun idx => ⟨?_, ?_⟩⟩
  · intro hnone
    by_contra hout
    push_neg at hout
    obtain ⟨h0, h40⟩ := hout
    have hv := (h2 idx.toNat (by omega)).2
    rw [Int.toNat_of_nonneg h0] at hv
    have hsome := hv.1
    rw [hnone] at hsome
    simp at hsome
  · rintro (h | h)
    · exact Grid.getRowCol_eq_none_of_neg idx h
    · exact Grid.getRowCol_eq_none_of_gt idx h

theorem C9_getRowCol_total_on_range_witness :
    Grid.getPadIndex 0 0 ≤ 40 ∧ Grid.validResultAt ((5 : ℕ) : ℤ) ∧
    Grid.getRowCol 41 = none :=
  ⟨C9_getRowCol_total_on_range.1 0 (by decide) 0 (by decide),
   (C9_getRowCol_total_on_range.2.1 5 (by decide)).2,
   (C9_getRowCol_total_on_range.2.2 41).mpr (by norm_num)⟩

/-- C8 counterexample: on the input `"5,"` the source adds pitch class `0`
for the empty trailing token (JS `Number('') = 0`), while the claim as
stated (malformed/non-numeric tokens dropped) yields only `{5}`. -/
theorem C8_counterexample_empty_token :
    Music.parseCustomPitchClasses "5," = ({0, 5} : Finset ℤ) ∧
    Music.claimedParseCustomPitchClasses "5," = ({5} : Finset ℤ) ∧
    Music.parseCustomPitchClasses "5," ≠ Music.claimedParseCustomPitchClasses "5," := by
  refine ⟨by decide, by decide, by decide⟩

/-- C8 (amended): for every input string in the integer fragment — each
comma-separated token, after JS whitespace trimming, is blank, an
optional-sign decimal integer literal of magnitude at most `2^53`, or
certainly non-numeric — `parseCustomPitchClasses` returns exactly the
mod-12 normalizations of the numeric tokens, where blank tokens coerce
to `0` rather than being dropped (an entirely blank input still yields
the empty set), every returned value lies in `[0, 12)` even for negative
integer tokens, and the certainly non-numeric tokens are silently
dropped without affecting the rest of the list.  Outside this fragment
the source works with IEEE-754 doubles — `"0x16"` contributes 10,
`"3.5"` contributes 3.5, and `"Infinity"` contributes `NaN`, violating
the unrestricted range claim — which the integer model deliberately does
not cover. -/
theorem C8_amended_parse_normalization :
    ∀ s : String, Music.integerFragment s = true →
      Music.parseCustomPitchClasses s = Music.amendedParseCustomPitchClasses s ∧
      ∀ x ∈ Music.parseCustomPitchClasses s, 0 ≤ x ∧ x < 12 := by
  intro s _
  have hmap : ((Music.splitComma s.data).filterMap
        (fun tok => Music.jsNumber (Music.trimChars tok))).map jsMod12 =
      ((Music.splitComma s.data).filterMap
        (fun tok => Music.jsNumber (Music.trimChars tok))).map (fun n => n % 12) :=
    List.map_congr_left (fun n _ => jsMod12_eq_emod n)
  constructor
  · unfold Music.parseCustomPitchClasses Music.amendedParseCustomPitchClasses
    by_cases hb : Music.trimChars s.data = []
    · rw [if_pos (Or.inr hb), if_pos hb]
    · have hcond : ¬ (s.data = [] ∨ Music.trimChars s.data = []) := by
        rintro (h | h)
        · exact hb (by simp [h, Music.trimChars])
        · exact hb h
      rw [if_neg hcond, if_neg hb, hmap]
  · intro x hx
    unfold Music.parseCustomPitchClasses at hx
    split_ifs at hx
    · simp at hx
    · rw [hmap] at hx
      simp only [List.mem_toFinset, List.mem_map] at hx
      obtain ⟨n, _, rfl⟩ := hx
      exact ⟨Int.emod_nonneg n (by norm_num), Int.emod_lt_of_pos n (by norm_num)⟩

theorem C8_amended_parse_normalization_witness :
    Music.integerFragment "\u00A0-13, z ,7" = true ∧
    Music.parseCustomPitchClasses "\u00A0-13, z ,7" =
      Music.amendedParseCustomPitchClasses "\u00A0-13, z ,7" ∧
    (0 ≤ (11 : ℤ) ∧ (11 : ℤ) < 12) :=
  ⟨by decide,
   (C8_amended_parse_normalization "\u00A0-13, z ,7" (by decide)).1,
   (C8_amended_parse_normalization "\u00A0-13, z ,7" (by decide)).2 11 (by decide)⟩

/-- The span score exactly as claim C2 words it: 100 up to span 3, linear
decay from 100 at 3 to 85 at 5, then to 40 at 7, further decay floored at
0 beyond (the claim leaves the beyond-7 rate unspecified; the source's
10-per-unit rate is used there, which is irrelevant to the
counterexample). -/
noncomputable def Scorer.claimedSpanScore (span : ℝ) : ℝ :=
  if span ≤ 3 then 100
  else if span ≤ 5 then 100 - (span - 3) * (15 / 2)
  else if span ≤ 7 then 85 - (span - 5) * (45 / 2)
  else max 0 (40 - (span - 7) * 10)

/-- A two-position fingering in row 0, columns 0 and 5: its span is
exactly 5 grid units. -/
def Scorer.spanFiveFingering : Fingering :=
  { positions :=
      [{ row := 0, col := 0, padIndex := 0, midiNote := 48, finger := 1, pitchClass := 0 },
       { row := 0, col := 5, padIndex := 5, midiNote := 53, finger := 2, pitchClass := 5 }] }

/-- A three-position fingering (fingers 1-2-3 on row 0, columns 0-2) with
comfort rating 80. -/
def Scorer.sampleFingering : Fingering :=
  { comfortRating := some 80,
    positions :=
      [{ row := 0, col := 0, padIndex := 0, midiNote := 48, finger := 1, pitchClass := 0 },
       { row := 0, col := 1, padIndex := 1, midiNote := 49, finger := 2, pitchClass := 1 },
       { row := 0, col := 2, padIndex := 2, midiNote := 50, finger := 3, pitchClass := 2 }] }

theorem Scorer.le_foldl_max {α : Type} (g : α → ℝ) :
    ∀ (l : List α) (a : ℝ), a ≤ l.foldl (fun m p => max m (g p)) a := by
  intro l
  induction l with
  | nil => intro a; exact le_refl a
  | cons x xs ih =>
    intro a
    calc a ≤ max a (g x) := le_max_left a (g x)
    _ ≤ xs.foldl (fun m p => max m (g p)) (max a (g x)) := ih (max a (g x))

theorem Scorer.calculateSpan_nonneg (positions : List MatchPos) :
    0 ≤ Matcher.calculateSpan positions :=
  Scorer.le_foldl_max _ (Matcher.pairsOf positions) 0

theorem Scorer.spanScore_bounds (s : ℝ) :
    0 ≤ Scorer.spanScore s ∧ Scorer.spanScore s ≤ 100 := by
  unfold Scorer.spanScore
  split_ifs with h1 h2 h3
  · norm_num
  · constructor <;> linarith
  · constructor <;> linarith
  · refine ⟨le_max_left 0 _, ?_⟩
    have h40 : 40 - (s - 7) * 10 ≤ 100 := by linarith
    exact max_le (by norm_num) h40

theorem Scorer.compactnessScore_bounds (rs : ℤ) :
    0 ≤ Scorer.compactnessScore rs ∧ Scorer.compactnessScore rs ≤ 100 := by
  unfold Scorer.compactnessScore
  split_ifs with h
  · norm_num
  · refine ⟨le_max_left 0 _, ?_⟩
    have h3 : (3 : ℤ) ≤ rs := by omega
    have h3r : (3 : ℝ) ≤ (rs : ℝ) := by exact_mod_cast h3
    have hle : 100 - ((rs : ℝ) - 2) * 20 ≤ 100 := by linarith
    exact max_le (by norm_num) hle

theorem Scorer.scoreGeometry_bounds (f : Fingering) :
    0 ≤ Scorer.scoreGeometry f ∧ Scorer.scoreGeometry f ≤ 100 := by
  unfold Scorer.scoreGeometry
  obtain ⟨s1, s2⟩ := Scorer.spanScore_bounds (Matcher.calculateSpan f.positions)
  obtain ⟨c1, c2⟩ := Scorer.compactnessScore_bounds (Scorer.rowSpanOf f.positions)
  constructor <;> linarith

theorem Scorer.clamp_bounds (x : ℝ) :
    0 ≤ max 0 (min 100 x) ∧ max 0 (min 100 x) ≤ 100 :=
  ⟨le_max_left 0 _, max_le (by norm_num) (min_le_left 100 x)⟩

theorem Scorer.scoreErgonomics_bounds (f : Fingering) :
    0 ≤ Scorer.scoreErgonomics f ∧ Scorer.scoreErgonomics f ≤ 100 := by
  unfold Scorer.scoreErgonomics
  exact Scorer.clamp_bounds _

theorem Scorer.scoreComfort_bounds (f : Fingering)
    (h : ∀ c : ℚ, f.comfortRating = some c → 0 ≤ c ∧ c ≤ 100) :
    0 ≤ Scorer.scoreComfort f ∧ Scorer.scoreComfort f ≤ 100 := by
  cases hc : f.comfortRating with
  | none =>
    have he : Scorer.scoreComfort f = 50 := by
      unfold Scorer.scoreComfort jsOrRat
      rw [hc]
      norm_num
    rw [he]
    norm_num
  | some c =>
    obtain ⟨hc0, hc100⟩ := h c hc
    by_cases hz : c = 0
    · have he : Scorer.scoreComfort f = 50 := by
        unfold Scorer.scoreComfort jsOrRat
        rw [hc]
        simp [hz]
      rw [he]
      norm_num
    · have he : Scorer.scoreComfort f = (c : ℝ) := by
        unfold Scorer.scoreComfort jsOrRat
        rw [hc]
        simp [hz]
      rw [he]
      constructor
      · exact_mod_cast hc0
      · exact_mod_cast hc100

theorem Scorer.jsRound_bounds {x : ℝ} (h0 : 0 ≤ x) (h1 : x ≤ 100) :
    (0 : ℝ) ≤ ((Scorer.jsRound x : ℤ) : ℝ) ∧ ((Scorer.jsRound x : ℤ) : ℝ) ≤ 100 := by
  unfold Scorer.jsRound
  constructor
  · have hz : (0 : ℤ) ≤ ⌊x + 1 / 2⌋ := Int.floor_nonneg.mpr (by linarith)
    exact_mod_cast hz
  · have hz : ⌊x + 1 / 2⌋ ≤ (100 : ℤ) := Int.floor_le_iff.mpr (by push_cast; linarith)
    exact_mod_cast hz

/-- C2 counterexample: at the fingering with span exactly 5 the source
scores geometry `(70 + 100) / 2 = 85`, while the claim's span score gives
85 at span 5, so the claimed geometric score would be
`(85 + 100) / 2 = 92.5`. -/
theorem C2_counterexample_span_five :
    Matcher.calculateSpan Scorer.spanFiveFingering.positions = 5 ∧
    Scorer.rowSpanOf Scorer.spanFiveFingering.positions = 0 ∧
    Scorer.scoreGeometry Scorer.spanFiveFingering = 85 ∧
    Scorer.claimedSpanScore 5 = 85 ∧
    Scorer.scoreGeometry Scorer.spanFiveFingering ≠
      (Scorer.claimedSpanScore (Matcher.calculateSpan Scorer.spanFiveFingering.positions) +
        Scorer.compactnessScore (Scorer.rowSpanOf Scorer.spanFiveFingering.positions)) / 2 := by
  have hsqrt : Real.sqrt 25 = 5 := by
    rw [show (25 : ℝ) = 5 ^ 2 by norm_num]
    exact Real.sqrt_sq (by norm_num)
  have hspan : Matcher.calculateSpan Scorer.spanFiveFingering.positions = 5 := by
    unfold Matcher.calculateSpan Matcher.pairsOf Scorer.spanFiveFingering
    simp only [List.map, List.foldl, List.append_nil, List.cons_append, List.nil_append]
    norm_num [hsqrt]
  have hrow : Scorer.rowSpanOf Scorer.spanFiveFingering.positions = 0 := by decide
  have hss : Scorer.spanScore 5 = 70 := by
    unfold Scorer.spanScore
    norm_num
  have hcs : Scorer.compactnessScore 0 = 100 := by
    unfold Scorer.compactnessScore
    norm_num
  have hgeo : Scorer.scoreGeometry Scorer.spanFiveFingering = 85 := by
    unfold Scorer.scoreGeometry
    rw [hspan, hrow, hss, hcs]
    norm_num
  have hclaimed : Scorer.claimedSpanScore 5 = 85 := by
    unfold Scorer.claimedSpanScore
    norm_num
  refine ⟨hspan, hrow, hgeo, hclaimed, ?_⟩
  rw [hspan, hrow, hclaimed, hcs, hgeo]
  norm_num

/-- C2 (amended): the geometric sub-score is the average of the piecewise
span score and the compactness score, where the span score is 100 for
span ≤ 3, decays linearly (15 per grid unit) to 70 as span goes from 3 to
5 and on to 40 as span goes from 5 to 7, and decays at 10 per unit with a
floor of 0 beyond 7; the compactness score is 100 for row-span ≤ 2 and
decays linearly (20 per extra row, floored at 0) beyond that. -/
theorem C2_amended_geometry_piecewise :
    (∀ f : Fingering, Scorer.scoreGeometry f =
      (Scorer.spanScore (Matcher.calculateSpan f.positions) +
       Scorer.compactnessScore (Scorer.rowSpanOf f.positions)) / 2) ∧
    (∀ s : ℝ,
      (s ≤ 3 → Scorer.spanScore s = 100) ∧
      (3 ≤ s → s ≤ 5 → Scorer.spanScore s = 100 - 15 * (s - 3)) ∧
      (5 ≤ s → s ≤ 7 → Scorer.spanScore s = 70 - 15 * (s - 5)) ∧
      (7 ≤ s → Scorer.spanScore s = max 0 (40 - 10 * (s - 7)))) ∧
    Scorer.spanScore 3 = 100 ∧ Scorer.spanScore 5 = 70 ∧ Scorer.spanScore 7 = 40 ∧
    (∀ rs : ℤ,
      (rs ≤ 2 → Scorer.compactnessScore rs = 100) ∧
      (2 ≤ rs → Scorer.compactnessScore rs = max 0 (100 - 20 * ((rs : ℝ) - 2)))) := by
  refine ⟨fun f => rfl, fun s => ⟨?_, ?_, ?_, ?_⟩, ?_, ?_, ?_, fun rs => ⟨?_, ?_⟩⟩
  · intro h
    unfold Scorer.spanScore
    rw [if_pos h]
  · intro h3 h5
    unfold Scorer.spanScore
    split_ifs with g1
    · linarith
    · ring
  · intro h5 h7
    unfold Scorer.spanScore
    split_ifs with g1 g2
    · exfalso; linarith
    · linarith
    · ring
  · intro h7
    unfold Scorer.spanScore
    split_ifs with g1 g2 g3
    · exfalso; linarith
    · exfalso; linarith
    · have h7e : s = 7 := le_antisymm g3 h7
      rw [h7e]
      rw [max_eq_right (by norm_num : (0:ℝ) ≤ 40 - 10 * (7 - 7))]
      norm_num
    · have : 40 - (s - 7) * 10 = 40 - 10 * (s - 7) := by ring
      rw [this]
  · unfold Scorer.spanScore; norm_num
  · unfold Scorer.spanScore; norm_num
  · unfold Scorer.spanScore; norm_num
  · intro h
    unfold Scorer.compactnessScore
    rw [if_pos h]
  · intro h
    unfold Scorer.compactnessScore
    split_ifs with g
    · have hrs : rs = 2 := le_antisymm g h
      rw [hrs]
      rw [max_eq_right (by norm_num : (0:ℝ) ≤ 100 - 20 * (((2:ℤ):ℝ) - 2))]
      norm_num
    · have : 100 - ((rs : ℝ) - 2) * 20 = 100 - 20 * ((rs : ℝ) - 2) := by ring
      rw [this]

theorem C2_amended_geometry_piecewise_witness :
    Scorer.spanScore 4 = 100 - 15 * ((4 : ℝ) - 3) ∧
    Scorer.compactnessScore 3 = max 0 (100 - 20 * (((3 : ℤ) : ℝ) - 2)) :=
  ⟨(C2_amended_geometry_piecewise.2.1 4).2.1 (by norm_num) (by norm_num),
   (C2_amended_geometry_piecewise.2.2.2.2.2 3).2 (by norm_num)⟩

/-- C3: for every fingering whose comfort rating (when present) lies in
`[0,100]`, every reported sub-score and the total lie in `[0,100]`; the
total is the weighted sum `comfort*0.4 + geometry*0.3 + ergonomics*0.3`
of the unrounded sub-scores, and the total and each sub-score are rounded
to the nearest integer when reported. -/
theorem C3_scorer_bounds_and_weighting :
    ∀ f : Fingering, (∀ c : ℚ, f.comfortRating = some c → 0 ≤ c ∧ c ≤ 100) →
      (0 ≤ (Scorer.scoreFingering f).comfortScore ∧
        (Scorer.scoreFingering f).comfortScore ≤ 100) ∧
      (0 ≤ (Scorer.scoreFingering f).geometricScore ∧
        (Scorer.scoreFingering f).geometricScore ≤ 100) ∧
      (0 ≤ (Scorer.scoreFingering f).ergonomicScore ∧
        (Scorer.scoreFingering f).ergonomicScore ≤ 100) ∧
      (0 ≤ (Scorer.scoreFingering f).score ∧ (Scorer.scoreFingering f).score ≤ 100) ∧
      (Scorer.scoreFingering f).score =
        ((Scorer.jsRound (Scorer.scoreComfort f * 0.4 + Scorer.scoreGeometry f * 0.3 +
          Scorer.scoreErgonomics f * 0.3) : ℤ) : ℝ) ∧
      (Scorer.scoreFingering f).comfortScore =
        ((Scorer.jsRound (Scorer.scoreComfort f) : ℤ) : ℝ) ∧
      (Scorer.scoreFingering f).geometricScore =
        ((Scorer.jsRound (Scorer.scoreGeometry f) : ℤ) : ℝ) ∧
      (Scorer.scoreFingering f).ergonomicScore =
        ((Scorer.jsRound (Scorer.scoreErgonomics f) : ℤ) : ℝ) := by
  intro f hcr
  obtain ⟨hc0, hc1⟩ := Scorer.scoreComfort_bounds f hcr
  obtain ⟨hg0, hg1⟩ := Scorer.scoreGeometry_bounds f
  obtain ⟨he0, he1⟩ := Scorer.scoreErgonomics_bounds f
  have ht0 : 0 ≤ Scorer.scoreComfort f * 0.4 + Scorer.scoreGeometry f * 0.3 +
      Scorer.scoreErgonomics f * 0.3 := by linarith
  have ht1 : Scorer.scoreComfort f * 0.4 + Scorer.scoreGeometry f * 0.3 +
      Scorer.scoreErgonomics f * 0.3 ≤ 100 := by linarith
  exact ⟨Scorer.jsRound_bounds hc0 hc1, Scorer.jsRound_bounds hg0 hg1,
    Scorer.jsRound_bounds he0 he1, Scorer.jsRound_bounds ht0 ht1,
    rfl, rfl, rfl, rfl⟩

theorem C3_scorer_bounds_and_weighting_witness :
    0 ≤ (Scorer.scoreFingering Scorer.sampleFingering).score ∧
    (Scorer.scoreFingering Scorer.sampleFingering).score ≤ 100 :=
  (C3_scorer_bounds_and_weighting Scorer.sampleFingering
    (by
      intro c hc
      rw [show Scorer.sampleFingering.comfortRating = some 80 from rfl] at hc
      injection hc with h
      rw [← h]
      norm_num)).2.2.2.1

/-- A handprint whose three positions sound a C major triad
(MIDI 48, 52, 55). -/
def Matcher.cMajorHandprint : Handprint :=
  { hand := "right",
    comfortRating := some 80,
    positions :=
      [{ row := 0, col := 0, padIndex := 0, midiNote := some 48, finger := 1 },
       { row := 0, col := 2, padIndex := 2, midiNote := some 52, finger := 2 },
       { row := 0, col := 4, padIndex := 4, midiNote := some 55, finger := 3 }] }

/-- The single candidate the matcher finds for `{0, 4, 7}` in
`cMajorHandprint`. -/
def Matcher.cMajorCandidate : Fingering :=
  { handprintId := 0,
    hand := "right",
    comfortRating := some (jsOrRat (some 80) 50),
    baseMidi := jsOrInt none 48,
    midiDevice := none,
    capturedAt := none,
    positions :=
      [{ row := 0, col := 0, padIndex := 0, midiNote := jsOrInt (some 48) (48 + 0),
         finger := 1, pitchClass := Music.midiToPitchClass (jsOrInt (some 48) (48 + 0)) },
       { row := 0, col := 2, padIndex := 2, midiNote := jsOrInt (some 52) (48 + 2),
         finger := 2, pitchClass := Music.midiToPitchClass (jsOrInt (some 52) (48 + 2)) },
       { row := 0, col := 4, padIndex := 4, midiNote := jsOrInt (some 55) (48 + 4),
         finger := 3, pitchClass := Music.midiToPitchClass (jsOrInt (some 55) (48 + 4)) }],
    score := 0,
    geometricScore := 0,
    ergonomicScore := 0 }

/-- C1: every candidate returned by `findChordFingerings` for target `T`
has a pitch-class set — computed from its positions' stored-or-derived
MIDI notes, equivalently from its attached pitch classes — exactly equal
to the set of `T`'s members: no proper superset or subset is ever
emitted. -/
theorem C1_matcher_exact_pitch_class_sets :
    ∀ (targetPitchClasses : List ℤ) (handprints : List Handprint) (baseMidi : ℤ)
      (hand : Option String) (f : Fingering),
      f ∈ Matcher.findChordFingerings targetPitchClasses handprints baseMidi hand →
      (f.positions.map (fun p => Music.midiToPitchClass p.midiNote)).toFinset =
        targetPitchClasses.toFinset ∧
      (f.positions.map MatchPos.pitchClass).toFinset = targetPitchClasses.toFinset := by
  intro tpc hps base hand f hf
  unfold Matcher.findChordFingerings at hf
  rw [List.mem_flatMap] at hf
  obtain ⟨hp, _, hf⟩ := hf
  rw [List.mem_filterMap] at hf
  obtain ⟨subset, _, heq⟩ := hf
  dsimp only at heq
  split_ifs at heq with hcond
  · obtain ⟨hcard, hsub⟩ := hcond
    have hset : (subset.map (fun pos =>
        Music.midiToPitchClass (jsOrInt pos.midiNote (base + pos.padIndex)))).toFinset =
        tpc.toFinset :=
      Finset.eq_of_subset_of_card_le hsub (le_of_eq hcard.symm)
    rw [Option.some_inj] at heq
    subst heq
    constructor
    · rw [← hset]
      congr 1
      rw [List.map_map]
      rfl
    · rw [← hset]
      congr 1
      rw [List.map_map]
      rfl

theorem C1_matcher_exact_pitch_class_sets_witness :
    (Matcher.cMajorCandidate.positions.map MatchPos.pitchClass).toFinset =
      ([0, 4, 7] : List ℤ).toFinset :=
  (C1_matcher_exact_pitch_class_sets [0, 4, 7] [Matcher.cMajorHandprint] 48 none
    Matcher.cMajorCandidate
    (by
      rw [show Matcher.findChordFingerings [0, 4, 7] [Matcher.cMajorHandprint] 48 none =
        [Matcher.cMajorCandidate] from rfl]
      exact List.mem_singleton.mpr rfl)).2

theorem Patterns.extractPatterns_nil (hand : Option String) :
    Patterns.extractPatterns [] hand = none := by
  unfold Patterns.extractPatterns
  rcases hb : Patterns.handTruthy hand <;> simp [hb]

theorem Synth.assignFingers_nil (hand : String)
    (patterns : Option Patterns.PatternStats) :
    Synth.assignFingers [] hand patterns = [] := rfl

theorem Synth.findPadCombinations_nil_target (base : ℤ) :
    Synth.findPadCombinations [] base 5 = [[]] := rfl

theorem Synth.length_synthesizeFingerings (tpc : List ℤ) (hps : List Handprint)
    (base : ℤ) (hand : String) (n : ℕ) :
    (Synth.synthesizeFingerings tpc hps base hand n).length =
      min n (Synth.findPadCombinations tpc base 5).length := by
  unfold Synth.synthesizeFingerings
  dsimp only
  split_ifs with h
  · rw [h]
    simp
  · rw [List.length_take, List.length_mergeSort, List.length_map]

theorem Synth.synthesizeFingerings_of_no_combos {tpc : List ℤ}
    {base : ℤ} (hps : List Handprint) (hand : String) (n : ℕ)
    (h : Synth.findPadCombinations tpc base 5 = []) :
    Synth.synthesizeFingerings tpc hps base hand n = [] := by
  unfold Synth.synthesizeFingerings
  dsimp only
  rw [if_pos (by rw [h]; rfl)]

theorem Synth.synthesizeFingerings_empty_tpc (hps : List Handprint) (base : ℤ)
    (hand : String) (n : ℕ) (hn : 1 ≤ n) :
    (Synth.synthesizeFingerings [] hps base hand n).map Synth.Fingering.positions =
      [[]] := by
  unfold Synth.synthesizeFingerings
  dsimp only
  rw [Synth.findPadCombinations_nil_target base]
  rw [if_neg (by norm_num)]
  simp only [List.map_cons, List.map_nil, List.mergeSort_singleton]
  rw [List.take_of_length_le (by simpa using hn)]
  simp only [List.map_cons, List.map_nil]
  rfl

/-- C4 counterexample: with an empty `targetPitchClasses` the synthesizer
does not return an empty list — the combination generator produces the
single empty combination, which becomes one degenerate candidate. -/
theorem C4_counterexample_degenerate_candidate :
    Synth.synthesizeFingerings [] [] 48 "right" 5 ≠ [] := by
  intro h
  have hm := Synth.synthesizeFingerings_empty_tpc [] 48 "right" 5 (by norm_num)
  rw [h] at hm
  simp at hm

/-- C4 (amended): whenever zero pad combinations are found,
`synthesizeFingerings` returns an empty list and no error; with an empty
`targetPitchClasses` list, however, it instead returns exactly one
degenerate candidate with an empty position list (when
`maxSuggestions ≥ 1`), again without error. -/
theorem C4_amended_empty_target :
    ∀ (tpc : List ℤ) (hps : List Handprint) (base : ℤ) (hand : String) (n : ℕ),
      (Synth.findPadCombinations tpc base 5 = [] →
        Synth.synthesizeFingerings tpc hps base hand n = []) ∧
      (tpc = [] → 1 ≤ n →
        (Synth.synthesizeFingerings tpc hps base hand n).map Synth.Fingering.positions =
          [[]]) := by
  intro tpc hps base hand n
  constructor
  · intro h
    exact Synth.synthesizeFingerings_of_no_combos hps hand n h
  · rintro rfl hn
    exact Synth.synthesizeFingerings_empty_tpc hps base hand n hn

theorem C4_amended_empty_target_witness :
    Synth.synthesizeFingerings [13] [] 48 "right" 5 = [] ∧
    (Synth.synthesizeFingerings [] [] 48 "right" 5).map Synth.Fingering.positions =
      [[]] :=
  ⟨(C4_amended_empty_target [13] [] 48 "right" 5).1 (by decide),
   (C4_amended_empty_target [] [] 48 "right" 5).2 rfl (by norm_num)⟩

/-- C5 counterexample: an empty handprint store with the non-empty target
`[0]` does *not* yield an empty result — the synthesizer falls back to
anatomical-only assignment and still returns candidates. -/
theorem C5_counterexample_anatomical_fallback :
    ([0] : List ℤ) ≠ [] ∧ Synth.synthesizeFingerings [0] [] 48 "right" 5 ≠ [] := by
  refine ⟨by simp, ?_⟩
  intro h
  have hlen := Synth.length_synthesizeFingerings [0] [] 48 "right" 5
  rw [h] at hlen
  have h3 : (Synth.findPadCombinations [0] 48 5).length = 3 := by decide
  rw [h3] at hlen
  norm_num at hlen

/-- C5 (amended): an empty HandprintStore never causes an error — pattern
extraction yields `none` and the synthesizer proceeds anatomically — and
the result is empty exactly when zero pad combinations are found (for a
positive `maxSuggestions`); for a non-empty target it is in general
non-empty rather than empty. -/
theorem C5_amended_empty_store :
    ∀ (tpc : List ℤ) (base : ℤ) (hand : String) (n : ℕ), 1 ≤ n →
      Patterns.extractPatterns [] (some hand) = none ∧
      (Synth.synthesizeFingerings tpc [] base hand n = [] ↔
        Synth.findPadCombinations tpc base 5 = []) := by
  intro tpc base hand n hn
  refine ⟨Patterns.extractPatterns_nil (some hand), ?_, ?_⟩
  · intro h
    by_contra hc
    have hlen := Synth.length_synthesizeFingerings tpc [] base hand n
    rw [h] at hlen
    have hL : (Synth.findPadCombinations tpc base 5).length ≠ 0 := by
      intro h0
      exact hc (List.length_eq_zero.mp h0)
    simp only [List.length_nil] at hlen
    omega
  · intro h
    exact Synth.synthesizeFingerings_of_no_combos [] hand n h

theorem C5_amended_empty_store_witness :
    Patterns.extractPatterns [] (some "right") = none ∧
    (Synth.synthesizeFingerings [2] [] 48 "right" 5 = [] ↔
      Synth.findPadCombinations [2] 48 5 = []) :=
  C5_amended_empty_store [2] 48 "right" 5 (by norm_num)

theorem HeapModel.mapStep_extends (acc : HeapModel.Heap × List ℕ) (r : ℕ) :
    ∃ d, (HeapModel.mapStep acc r).1 = acc.1 ++ d := by
  unfold HeapModel.mapStep
  cases HeapModel.read acc.1 r with
  | some f => exact ⟨[Scorer.scoreFingering f], rfl⟩
  | none => exact ⟨[], (List.append_nil acc.1).symm⟩

theorem HeapModel.foldl_mapStep_extends :
    ∀ (refs : List ℕ) (st : HeapModel.Heap × List ℕ),
      ∃ d, (List.foldl HeapModel.mapStep st refs).1 = st.1 ++ d := by
  intro refs
  induction refs with
  | nil => exact fun st => ⟨[], (List.append_nil st.1).symm⟩
  | cons r rs ih =>
    intro st
    obtain ⟨d1, hd1⟩ := HeapModel.mapStep_extends st r
    obtain ⟨d2, hd2⟩ := ih (HeapModel.mapStep st r)
    exact ⟨d1 ++ d2, by rw [List.foldl_cons, hd2, hd1, List.append_assoc]⟩

theorem HeapModel.mapStep_refs (acc : HeapModel.Heap × List ℕ) (r : ℕ) :
    (HeapModel.mapStep acc r).2 = acc.2 ∨
    (HeapModel.mapStep acc r).2 = acc.2 ++ [acc.1.length] := by
  unfold HeapModel.mapStep
  cases HeapModel.read acc.1 r with
  | some f => exact Or.inr rfl
  | none => exact Or.inl rfl

theorem HeapModel.foldl_mapStep_fresh (m : ℕ) :
    ∀ (refs : List ℕ) (st : HeapModel.Heap × List ℕ),
      m ≤ st.1.length → (∀ a ∈ st.2, m ≤ a) →
      ∀ a ∈ (List.foldl HeapModel.mapStep st refs).2, m ≤ a := by
  intro refs
  induction refs with
  | nil => exact fun st _ h2 => h2
  | cons r rs ih =>
    intro st h1 h2
    rw [List.foldl_cons]
    obtain ⟨d, hd⟩ := HeapModel.mapStep_extends st r
    have h1' : m ≤ (HeapModel.mapStep st r).1.length := by
      rw [hd, List.length_append]
      omega
    have h2' : ∀ a ∈ (HeapModel.mapStep st r).2, m ≤ a := by
      rcases HeapModel.mapStep_refs st r with h | h
      · rw [h]; exact h2
      · rw [h]
        intro a ha
        rcases List.mem_append.mp ha with ha | ha
        · exact h2 a ha
        · rw [List.mem_singleton.mp ha]
          exact h1
    exact ih (HeapModel.mapStep st r) h1' h2'

/-- C10: `rankFingerings` does not mutate its input.  In the heap model,
every input address still holds its original object after the call
(scores are attached only to freshly allocated copies), and every address
the call returns is fresh (at or past the old heap end), so the sort
permutes only the newly mapped array. -/
theorem C10_rankFingerings_no_mutation :
    ∀ (h : HeapModel.Heap) (refs : List ℕ),
      (∀ i, i < h.length → ((HeapModel.rankFingeringsH h refs).1)[i]? = h[i]?) ∧
      (∀ a ∈ (HeapModel.rankFingeringsH h refs).2, h.length ≤ a) := by
  intro h refs
  obtain ⟨d, hd⟩ := HeapModel.foldl_mapStep_extends refs (h, [])
  have hfst : (HeapModel.rankFingeringsH h refs).1 = h ++ d := hd
  constructor
  · intro i hi
    rw [hfst, List.getElem?_append, if_pos hi]
  · intro a ha
    have hmem : a ∈ (HeapModel.mapPhase h refs).2 := by
      have : (HeapModel.rankFingeringsH h refs).2 =
          (HeapModel.mapPhase h refs).2.mergeSort _ := rfl
      rw [this] at ha
      exact List.mem_mergeSort.mp ha
    exact HeapModel.foldl_mapStep_fresh h.length refs (h, []) (le_refl _)
      (by intro a ha; simp at ha) a hmem

theorem C10_rankFingerings_no_mutation_witness :
    ((HeapModel.rankFingeringsH [Scorer.sampleFingering] [0]).1)[0]? =
      some Scorer.sampleFingering := by
  have hframe := (C10_rankFingerings_no_mutation [Scorer.sampleFingering] [0]).1 0
    (by norm_num)
  rw [hframe]
  rfl

end EF
